import Mathlib

set_option linter.unusedVariables false

/-!
Shallow embedding of the clerq service registry (src/index.js).

The registry is a redis-backed service registry.  The external redis store
is modelled as an association list from keys to set members (redis deletes
a key whose set becomes empty, and `keys pat` returns keys matching the
glob `pat`, here always of the form `pfx ++ "*"`).  Each registry
operation returns the settled promise value (an `Except`, where `error`
models a rejected promise), the registry state afterwards, and the list of
redis calls it issued, in order.

Naming: the JS `_options.prefix` field is called `pfx` here,
`_options.delimiter` is `delim`, `_key` is `keyOf`, `_address` is `addr`,
and `ip.address(iface)` (an external network-interface lookup) is the
`localAddr` option.  Time (`Date.now()`) is passed explicitly as `now`,
and the store's random choices (`srandmember`, the random index in `all`)
are passed as a `choice` index.

Store errors: each operation takes a flag `sErr` telling whether its
primary redis call fails (models a redis error handed to the callback) and
`eErr` telling whether the TTL-refresh `expire` call fails.  In the source
the refresh call in `up`/`down`/`get`/`all` is issued without a callback,
so its outcome is invisible to the operation; `eErr` therefore occurs in
the signatures but cannot influence any result.  `destroy`'s primary call
is itself an `expire` with a callback, covered by `sErr`.
-/

/-- JavaScript runtime values passed as arguments to the registry API.
Numbers are modelled as integers (no claim involves fractional values). -/
inductive JSVal where
  | num (n : Int)
  | str (s : String)
  | boolV (b : Bool)
  | undef
  | nullV
deriving DecidableEq

/-- The two error kinds a registry promise can reject with:
the INVALID_SERVICE error thrown before any store call, and an error
surfaced from a redis call. -/
inductive RegErr where
  | invalidService
  | storeError
deriving DecidableEq

/-- One redis call, as recorded in an operation's call trace.  The `sadd`
member is an `Option` because `_address` can return undefined, in which
case the source still issues the `sadd` (with an undefined member, which
the store adapter rejects). -/
inductive StoreCall where
  | sadd (key : String) (member : Option String)
  | srem (key : String) (member : Option String)
  | srandmember (key : String)
  | smembers (key : String)
  | expire (key : String) (seconds : Int)
  | keys (pattern : String)
deriving DecidableEq

/-- A read-cache entry: `this._cache[service] = { d, t: Date.now() }`. -/
structure CacheEntry where
  d : String
  t : Int
deriving DecidableEq

/-- The configuration surface of the registry (constructor `options`).
`pfx` is the JS `prefix` option (default "clerq"), `delim` the
`delimiter` option (`none` = absent), `expire` the TTL in seconds
(`none` = not a number / absent; JS truthiness makes `some 0` falsy),
`cache` the cache window in milliseconds (`none` = not a number /
absent), and `localAddr` the result of the external
`ip.address(iface)` lookup. -/
structure RegOptions where
  pfx : String := "clerq"
  delim : Option String := none
  expire : Option Int := none
  cache : Option Int := none
  localAddr : String := "127.0.0.1"
deriving DecidableEq

/-- The redis store contents: an association list from keys to the member
list of the set stored at that key. -/
structure RedisStore where
  sets : List (String × List String)
deriving DecidableEq

/-- The in-process state owned by one ServiceRegistry instance: its
options, its read cache (`this._cache`) and the store it talks to. -/
structure Registry where
  opts : RegOptions
  cache : List (String × CacheEntry)
  store : RedisStore
deriving DecidableEq

/-- Result of one registry operation: the settled promise value, the
registry state afterwards, and the redis calls issued, in order. -/
structure OpOut (α : Type) where
  res : Except RegErr α
  reg : Registry
  calls : List StoreCall

/-- Lookup in an association list of cache entries. -/
def lookupCache : List (String × CacheEntry) → String → Option CacheEntry
  | [], _ => none
  | (k, e) :: rest, s => if k = s then some e else lookupCache rest s

/-- Overwrite the cache entry for a service (`this._cache[service] = e`). -/
def putCache (c : List (String × CacheEntry)) (s : String) (e : CacheEntry) :
    List (String × CacheEntry) :=
  (s, e) :: c.filter (fun p => p.1 != s)

/-- Lookup of a set in the store; an absent key holds the empty set. -/
def lookupSet : List (String × List String) → String → List String
  | [], _ => []
  | (k, v) :: rest, key => if k = key then v else lookupSet rest key

/-- Members of the set at `key` (redis `smembers`; empty if key absent). -/
def RedisStore.members (st : RedisStore) (key : String) : List String :=
  lookupSet st.sets key

/-- Replace the set stored at `key`; redis removes a key whose set
becomes empty. -/
def RedisStore.withSet (st : RedisStore) (key : String) (ms : List String) :
    RedisStore :=
  if ms = [] then ⟨st.sets.filter (fun p => p.1 != key)⟩
  else ⟨(key, ms) :: st.sets.filter (fun p => p.1 != key)⟩

/-- Redis `sadd key m`: returns the number of newly added members (0 or 1)
and the updated store. -/
def RedisStore.sadd (st : RedisStore) (key m : String) : Nat × RedisStore :=
  let cur := st.members key
  if m ∈ cur then (0, st) else (1, st.withSet key (cur ++ [m]))

/-- Redis `srem key m`: returns the number of removed members (0 or 1)
and the updated store. -/
def RedisStore.srem (st : RedisStore) (key m : String) : Nat × RedisStore :=
  let cur := st.members key
  if m ∈ cur then (1, st.withSet key (cur.erase m)) else (0, st)

/-- Redis `srandmember key`: one member chosen by the store (the choice is
modelled by an index), or none if the key is absent or the set empty. -/
def RedisStore.srandmember (st : RedisStore) (key : String) (choice : Nat) :
    Option String :=
  let cur := st.members key
  if cur = [] then none else cur.get? (choice % cur.length)

/-- All keys present in the store, in store order. -/
def RedisStore.keyList (st : RedisStore) : List String :=
  st.sets.map Prod.fst

/-- Redis `keys (p ++ "*")`: the stored keys matching the glob, i.e. those
beginning with `p`, in store order. -/
def RedisStore.keysWithPfx (st : RedisStore) (p : String) : List String :=
  st.keyList.filter (fun k => p.data.isPrefixOf k.data)

/-- The effective delimiter: `this._options.delimiter || '::'` (an absent
or empty delimiter falls back to "::"). -/
def RegOptions.delimVal (o : RegOptions) : String :=
  match o.delim with
  | some d => if d = "" then "::" else d
  | none => "::"

/-- The source's `_key(service)`: `prefix + delimiter`, with the service
name appended when it is non-empty (the spec's `buildKey`). -/
def RegOptions.keyOf (o : RegOptions) (service : String) : String :=
  let k := o.pfx ++ o.delimVal
  if service = "" then k else k ++ service

/-- The caching guard used by `get`, `all` and `isCached`:
`is.number(this._options.cache) && this._options.cache > 0`. -/
def RegOptions.cacheEnabled (o : RegOptions) : Bool :=
  match o.cache with
  | some c => decide (0 < c)
  | none => false

/-- JS truthiness of the `expire` option: a number different from 0. -/
def RegOptions.expireOn (o : RegOptions) : Bool :=
  match o.expire with
  | some e => decide (e ≠ 0)
  | none => false

/-- The TTL-refresh calls issued by an operation on `key`:
`if (this._options.expire) this._redis.expire(key, this._options.expire)`. -/
def expCalls (o : RegOptions) (key : String) : List StoreCall :=
  match o.expire with
  | some e => if e = 0 then [] else [StoreCall.expire key e]
  | none => []

/-- Characters trimmed by JS `parseInt` before parsing. -/
def isJsSpace (c : Char) : Bool :=
  c == ' ' || c == '\t' || c == '\n' || c == '\r'

/-- Value of a hexadecimal digit character, if it is one. -/
def hexDigitVal (c : Char) : Option Nat :=
  if c.isDigit then some (c.toNat - '0'.toNat)
  else if 'a' ≤ c ∧ c ≤ 'f' then some (c.toNat - 'a'.toNat + 10)
  else if 'A' ≤ c ∧ c ≤ 'F' then some (c.toNat - 'A'.toNat + 10)
  else none

/-- The values of the maximal leading run of digits valid in `base`. -/
def leadDigits (base : Nat) : List Char → List Nat
  | [] => []
  | c :: cs =>
    match hexDigitVal c with
    | some v => if v < base then v :: leadDigits base cs else []
    | none => []

/-- JS `parseInt(s)` (radix auto-detected): trims leading whitespace,
takes an optional sign, a `0x`/`0X` hex prefix, then the maximal run of
valid digits; `none` models `NaN` (no digits). -/
def parseIntJS (s : String) : Option Int :=
  let cs := s.data.dropWhile isJsSpace
  let sgnCs : Bool × List Char :=
    match cs with
    | '-' :: rest => (true, rest)
    | '+' :: rest => (false, rest)
    | _ => (false, cs)
  let baseCs : Nat × List Char :=
    match sgnCs.2 with
    | '0' :: 'x' :: rest => (16, rest)
    | '0' :: 'X' :: rest => (16, rest)
    | _ => (10, sgnCs.2)
  let ds := leadDigits baseCs.1 baseCs.2
  if ds = [] then none
  else
    let v : Nat := ds.foldl (fun a d => a * baseCs.1 + d) 0
    some (if sgnCs.1 then -(v : Int) else (v : Int))

/-- The source's `_address(target)`: a number gives `localAddr:abs(n)`;
a string containing ':' is returned unchanged; a string without ':' is
run through `parseInt` and, when that yields a number, formatted as
`localAddr:abs(p)`; everything else gives undefined. -/
def RegOptions.addr (o : RegOptions) (target : JSVal) : Option String :=
  match target with
  | .num n => some (o.localAddr ++ ":" ++ toString n.natAbs)
  | .str s =>
    if s.data.contains ':' then some s
    else
      match parseIntJS s with
      | some p => some (o.localAddr ++ ":" ++ toString p.natAbs)
      | none => none
  | _ => none

/-- The validation done at the top of every service operation:
`is.not.string(service) || is.empty(service)` fails, so only a non-empty
string is valid. -/
def isValidService : JSVal → Bool
  | .str s => !(s == "")
  | _ => false

/-- Splits a character list at every '.' (for the IPv4 check). -/
def splitDots : List Char → List (List Char)
  | [] => [[]]
  | '.' :: rest => [] :: splitDots rest
  | c :: rest =>
    match splitDots rest with
    | [] => [[c]]
    | g :: gs => (c :: g) :: gs

/-- One component of the is_js IPv4 regex:
`25[0-5] | 2[0-4][0-9] | [01]?[0-9][0-9]?`. -/
def ipv4Part (g : List Char) : Bool :=
  match g with
  | [a] => a.isDigit
  | [a, b] => a.isDigit && b.isDigit
  | [a, b, c] =>
    (a == '2' && b == '5' && c.isDigit && decide (c.toNat ≤ '5'.toNat)) ||
    (a == '2' && b.isDigit && decide (b.toNat ≤ '4'.toNat) && c.isDigit) ||
    ((a == '0' || a == '1') && b.isDigit && c.isDigit)
  | _ => false

/-- The is_js IPv4 test: exactly four dot-separated components, each
matching `ipv4Part`. -/
def isIPv4 (s : String) : Bool :=
  match splitDots s.data with
  | [a, b, c, d] => ipv4Part a && ipv4Part b && ipv4Part c && ipv4Part d
  | _ => false

/-- Models is_js `is.ip` on the registry's inputs.  Only strings can
match (the regex test of a non-string coerces it to a dot-free string).
The library also accepts IPv6 literals; that alternative is omitted here,
as no claim concerns IPv6 inputs. -/
def isIp : JSVal → Bool
  | .str s => isIPv4 s
  | _ => false

/-- The source's `isCached(service)`: caching must be configured to a
positive number, an entry must exist, and `Math.abs(Date.now() - t)` must
be below the window. -/
def Registry.isCached (r : Registry) (service : String) (now : Int) : Bool :=
  match r.opts.cache with
  | some c =>
    if 0 < c then
      match lookupCache r.cache service with
      | some e => decide (|now - e.t| < c)
      | none => false
    else false
  | none => false

/-- The source's `up(service, target)`: validate, normalize the address,
`sadd` it at `_key(service)`, fire the TTL refresh, and resolve the add
count.  An undefined address makes the store reject the `sadd`. -/
def Registry.up (r : Registry) (service target : JSVal) (sErr eErr : Bool) :
    OpOut Nat :=
  match service with
  | .str s =>
    if s = "" then ⟨.error .invalidService, r, []⟩
    else
      let key := r.opts.keyOf s
      match r.opts.addr target with
      | none => ⟨.error .storeError, r, StoreCall.sadd key none :: expCalls r.opts key⟩
      | some a =>
        let calls := StoreCall.sadd key (some a) :: expCalls r.opts key
        if sErr then ⟨.error .storeError, r, calls⟩
        else
          let out := r.store.sadd key a
          ⟨.ok out.1, { r with store := out.2 }, calls⟩
  | _ => ⟨.error .invalidService, r, []⟩

/-- The source's `down(service, target)`: validate, normalize, `srem` the
address, fire the TTL refresh, and resolve the removal count. -/
def Registry.down (r : Registry) (service target : JSVal) (sErr eErr : Bool) :
    OpOut Nat :=
  match service with
  | .str s =>
    if s = "" then ⟨.error .invalidService, r, []⟩
    else
      let key := r.opts.keyOf s
      match r.opts.addr target with
      | none => ⟨.error .storeError, r, StoreCall.srem key none :: expCalls r.opts key⟩
      | some a =>
        let calls := StoreCall.srem key (some a) :: expCalls r.opts key
        if sErr then ⟨.error .storeError, r, calls⟩
        else
          let out := r.store.srem key a
          ⟨.ok out.1, { r with store := out.2 }, calls⟩
  | _ => ⟨.error .invalidService, r, []⟩

/-- The source's `destroy(service)`: validate, then `expire(key, 1)` with
a callback; resolves `true` on success, rejects on a store error.  It
never touches the read cache or the set contents. -/
def Registry.destroy (r : Registry) (service : JSVal) (sErr : Bool) :
    OpOut Bool :=
  match service with
  | .str s =>
    if s = "" then ⟨.error .invalidService, r, []⟩
    else
      let key := r.opts.keyOf s
      if sErr then ⟨.error .storeError, r, [StoreCall.expire key 1]⟩
      else ⟨.ok true, r, [StoreCall.expire key 1]⟩
  | _ => ⟨.error .invalidService, r, []⟩

/-- The source's `get(service)`: validate; if `isCached`, resolve the
cached address with no store call; otherwise `srandmember`, fire the TTL
refresh, and — when caching is enabled and the returned member is truthy
(the empty string is falsy in JS) — overwrite the cache entry, stamped
with the current time. -/
def Registry.get (r : Registry) (service : JSVal) (now : Int) (choice : Nat)
    (sErr eErr : Bool) : OpOut (Option String) :=
  match service with
  | .str s =>
    if s = "" then ⟨.error .invalidService, r, []⟩
    else if r.isCached s now then
      ⟨.ok ((lookupCache r.cache s).map CacheEntry.d), r, []⟩
    else
      let key := r.opts.keyOf s
      let calls := StoreCall.srandmember key :: expCalls r.opts key
      if sErr then ⟨.error .storeError, r, calls⟩
      else
        let d := r.store.srandmember key choice
        let cache2 :=
          if r.opts.cacheEnabled then
            match d with
            | some v => if v = "" then r.cache else putCache r.cache s ⟨v, now⟩
            | none => r.cache
          else r.cache
        ⟨.ok d, { r with cache := cache2 }, calls⟩
  | _ => ⟨.error .invalidService, r, []⟩

/-- The source's `all(service)`: validate; `smembers`, fire the TTL
refresh, and — when caching is enabled and the list is non-empty — seed
the cache with a randomly chosen member (no truthiness check here,
unlike `get`). -/
def Registry.all (r : Registry) (service : JSVal) (now : Int) (choice : Nat)
    (sErr eErr : Bool) : OpOut (List String) :=
  match service with
  | .str s =>
    if s = "" then ⟨.error .invalidService, r, []⟩
    else
      let key := r.opts.keyOf s
      let calls := StoreCall.smembers key :: expCalls r.opts key
      if sErr then ⟨.error .storeError, r, calls⟩
      else
        let d := r.store.members key
        let cache2 :=
          if r.opts.cacheEnabled then
            if d = [] then r.cache
            else putCache r.cache s ⟨d.getD (choice % d.length) "", now⟩
          else r.cache
        ⟨.ok d, { r with cache := cache2 }, calls⟩
  | _ => ⟨.error .invalidService, r, []⟩

/-- Drops `pat` from the front of a character list when it is a prefix. -/
def dropPfx : List Char → List Char → Option (List Char)
  | [], s => some s
  | _ :: _, [] => none
  | p :: ps, c :: cs => if p = c then dropPfx ps cs else none

/-- Removes the first occurrence of `pat` (JS `str.replace(pat, '')` with
a string pattern); the string is unchanged when `pat` does not occur. -/
def removeFirstOcc (pat : List Char) : List Char → List Char
  | [] => []
  | c :: cs =>
    match dropPfx pat (c :: cs) with
    | some rest => rest
    | none => c :: removeFirstOcc pat cs

/-- JS `s.replace(pat, '')` for a string pattern: removes the first
occurrence of `pat` from `s`. -/
def replaceFirstJS (s pat : String) : String :=
  ⟨removeFirstOcc pat.data s.data⟩

/-- The source's `services()`: `keys(prefix + '*')`, then each returned
key has the first occurrence of `_key()` removed via `String.replace`. -/
def Registry.services (r : Registry) (sErr : Bool) : OpOut (List String) :=
  let pat := r.opts.pfx ++ "*"
  if sErr then ⟨.error .storeError, r, [StoreCall.keys pat]⟩
  else
    let ks := r.store.keysWithPfx r.opts.pfx
    ⟨.ok (ks.map (fun k => replaceFirstJS k (r.opts.keyOf ""))), r,
      [StoreCall.keys pat]⟩

/-- The starting-port option handed to the free-port probe:
`getPort({ port })` receives a number when the first argument is one. -/
def portNumOf : JSVal → Option Nat
  | .num n => some n.toNat
  | _ => none

/-- The host string of an argument that passed the `is.ip` test. -/
def ipStrOf : JSVal → String
  | .str s => s
  | _ => ""

/-- The source's `findPort(port, ip)` promise executor, with the probe
(`portFinder.getPort`) abstracted as a function from the starting-port
option to the locally free port it reports, and recursion depth bounded
by `fuel`.  Faithful to the source, the conflict branch calls
`this.findPort(port + 1, ip)` but does NOT resolve the outer promise with
its result: the first component is `none` in that branch (the promise
never settles), while the recursive call's store effects and trace are
kept.  Store errors in the `sadd` are not injected here (no claim
concerns them). -/
def findPortGo (o : RegOptions) (probe : Option Nat → Nat) :
    Nat → JSVal → JSVal → RedisStore →
      Option Nat × RedisStore × List StoreCall
  | fuel, pArg, hArg, st =>
    let pArg2 := if isIp pArg then JSVal.undef else pArg
    let hArg2 := if isIp pArg then pArg else hArg
    let cand := probe (portNumOf pArg2)
    if isIp hArg2 then
      let key := o.keyOf (ipStrOf hArg2 ++ "/p")
      let addOut := st.sadd key (toString cand)
      let calls := StoreCall.sadd key (some (toString cand)) :: expCalls o key
      if addOut.1 ≠ 0 then (some cand, addOut.2, calls)
      else
        match fuel with
        | 0 => (none, addOut.2, calls)
        | fuel2 + 1 =>
          let rcr := findPortGo o probe fuel2 (JSVal.num (Int.ofNat (cand + 1)))
            hArg2 addOut.2
          (none, rcr.2.1, calls ++ rcr.2.2)
    else (some cand, st, [])

/-- `findPort` at the registry level: the resolved value (`none` when the
promise never settles within `fuel` conflict retries — or at all, in the
conflict branch), the registry afterwards, and the redis calls issued. -/
def Registry.findPort (r : Registry) (probe : Option Nat → Nat) (fuel : Nat)
    (pArg hArg : JSVal) : Option Nat × Registry × List StoreCall :=
  let out := findPortGo r.opts probe fuel pArg hArg r.store
  (out.1, { r with store := out.2.1 }, out.2.2)

/-- The source's `releasePort(port, ip)`: `srem` the port from the claim
key's set, fire the TTL refresh, resolve the removal count. -/
def Registry.releasePort (r : Registry) (port : Nat) (host : String)
    (sErr eErr : Bool) : OpOut Nat :=
  let key := r.opts.keyOf (host ++ "/p")
  let calls := StoreCall.srem key (some (toString port)) :: expCalls r.opts key
  if sErr then ⟨.error .storeError, r, calls⟩
  else
    let out := r.store.srem key (toString port)
    ⟨.ok out.1, { r with store := out.2 }, calls⟩

/-- Modelled from the spec and claim words (for comparison with the
source's `String.replace`): "strips the common key prefix (`buildKey()`)"
— removes a leading `pat` from `k`, leaving `k` unchanged otherwise. -/
def stripPfxSpec (pat k : String) : String :=
  match dropPfx pat.data k.data with
  | some rest => ⟨rest⟩
  | none => k

/-- Modelled from the claim's words for C6 (the spec's
`normalizeAddress`): numeric target → `localAddr:abs(n)`; string with
':' → unchanged; string without ':' whose `parseInt` yields a number →
`localAddr:abs(p)`; otherwise undefined. -/
def normalizeAddressSpec (o : RegOptions) (target : JSVal) : Option String :=
  match target with
  | .num n => some (o.localAddr ++ ":" ++ toString n.natAbs)
  | .str s =>
    if s.data.contains ':' then some s
    else (parseIntJS s).map (fun p => o.localAddr ++ ":" ++ toString p.natAbs)
  | _ => none

/-- Strict whole-string numeric reading of a string, modelling JS
`Number(s)` on integer strings: after trimming, an optional sign followed
by nothing but decimal digits.  Used to state that an input like "12abc"
is not a numeric string. -/
def jsStrictNum (s : String) : Option Int :=
  let t := ((s.data.dropWhile isJsSpace).reverse.dropWhile isJsSpace).reverse
  let sgnDs : Bool × List Char :=
    match t with
    | '-' :: rest => (true, rest)
    | '+' :: rest => (false, rest)
    | _ => (false, t)
  if sgnDs.2 = [] then none
  else if sgnDs.2.all Char.isDigit then
    let v : Nat := sgnDs.2.foldl (fun a c => a * 10 + (c.toNat - '0'.toNat)) 0
    some (if sgnDs.1 then -(v : Int) else (v : Int))
  else none

/-! ### Helper lemmas about the store and cache model -/

theorem lookupCache_putCache_self (c : List (String × CacheEntry)) (s : String)
    (e : CacheEntry) : lookupCache (putCache c s e) s = some e := by
  simp [putCache, lookupCache]

theorem lookupSet_filter_ne (l : List (String × List String)) (k : String) :
    lookupSet (l.filter (fun p => p.1 != k)) k = [] := by
  induction l with
  | nil => rfl
  | cons p rest ih =>
    by_cases h : p.1 = k
    · simp [List.filter_cons, h, ih]
    · simp [List.filter_cons, h, lookupSet, ih]

theorem members_withSet_self (st : RedisStore) (k : String) (ms : List String) :
    (st.withSet k ms).members k = ms := by
  by_cases h : ms = []
  · simp [RedisStore.withSet, RedisStore.members, h, lookupSet_filter_ne]
  · simp [RedisStore.withSet, RedisStore.members, h, lookupSet]

theorem srandmember_mem {st : RedisStore} {k : String} {c : Nat} {m : String}
    (h : st.srandmember k c = some m) : m ∈ st.members k := by
  unfold RedisStore.srandmember at h
  by_cases he : st.members k = []
  · simp [he] at h
  · simp only [he, if_neg, ite_false] at h
    exact List.get?_mem h

theorem dropPfx_append (p r : List Char) : dropPfx p (p ++ r) = some r := by
  induction p with
  | nil => rfl
  | cons c cs ih => simp [dropPfx, ih]

theorem removeFirstOcc_append (p r : List Char) :
    removeFirstOcc p (p ++ r) = r := by
  rcases hpr : p ++ r with _ | ⟨c, cs⟩
  · have h2 := List.append_eq_nil.mp hpr
    rw [h2.2]
    rfl
  · show (match dropPfx p (c :: cs) with
      | some rest => rest
      | none => c :: removeFirstOcc p cs) = r
    rw [← hpr, dropPfx_append]

theorem strDataAppend (a b : String) : (a ++ b).data = a.data ++ b.data := rfl

theorem map_congr_mem {α β : Type} (l : List α) (f g : α → β)
    (h : ∀ a ∈ l, f a = g a) : l.map f = l.map g := by
  induction l with
  | nil => rfl
  | cons x xs ih =>
    simp only [List.map_cons, h x (List.mem_cons_self x xs)]
    rw [ih (fun a ha => h a (List.mem_cons_of_mem x ha))]

theorem isCached_false_of_disabled (r : Registry) (s : String) (now : Int)
    (h : r.opts.cacheEnabled = false) : r.isCached s now = false := by
  rcases hco : r.opts.cache with _ | c
  · simp [Registry.isCached, hco]
  · have hp : ¬ (0:Int) < c := by
      intro hp
      rw [RegOptions.cacheEnabled, hco] at h
      simp [hp] at h
    simp [Registry.isCached, hco, hp]

theorem up_ok (r : Registry) (s : String) (target : JSVal) (a : String)
    (eErr : Bool) (hs : s ≠ "") (ha : r.opts.addr target = some a) :
    r.up (JSVal.str s) target false eErr
      = ⟨Except.ok (r.store.sadd (r.opts.keyOf s) a).1,
         { r with store := (r.store.sadd (r.opts.keyOf s) a).2 },
         StoreCall.sadd (r.opts.keyOf s) (some a)
           :: expCalls r.opts (r.opts.keyOf s)⟩ := by
  simp [Registry.up, hs, ha]

theorem down_ok (r : Registry) (s : String) (target : JSVal) (a : String)
    (eErr : Bool) (hs : s ≠ "") (ha : r.opts.addr target = some a) :
    r.down (JSVal.str s) target false eErr
      = ⟨Except.ok (r.store.srem (r.opts.keyOf s) a).1,
         { r with store := (r.store.srem (r.opts.keyOf s) a).2 },
         StoreCall.srem (r.opts.keyOf s) (some a)
           :: expCalls r.opts (r.opts.keyOf s)⟩ := by
  simp [Registry.down, hs, ha]

theorem sadd_not_mem_parts (st : RedisStore) (k a : String)
    (h : a ∉ st.members k) :
    (st.sadd k a).1 = 1 ∧ (st.sadd k a).2.members k = st.members k ++ [a] := by
  simp [RedisStore.sadd, h, members_withSet_self]

theorem srem_mem_parts (st : RedisStore) (k a : String)
    (h : a ∈ st.members k) :
    (st.srem k a).1 = 1
      ∧ (st.srem k a).2.members k = (st.members k).erase a := by
  simp [RedisStore.srem, h, members_withSet_self]

theorem srem_not_mem (st : RedisStore) (k a : String)
    (h : a ∉ st.members k) : st.srem k a = (0, st) := by
  simp [RedisStore.srem, h]

/-! ### Claim theorems -/

/-- A concrete registry used by several witnesses: default prefix and
delimiter, expiry 5 seconds, cache window 60000 ms, empty store. -/
def baseReg : Registry :=
  { opts := { pfx := "clerq", delim := none, expire := some 5,
              cache := some 60000, localAddr := "10.0.0.1" }
  , cache := [], store := ⟨[]⟩ }

/-- Claim C3: for every argument that is not a non-empty string, each of
up, down, destroy, get and all rejects with the INVALID_SERVICE error
(a rejected promise) and issues no store call, leaving the registry
unchanged. -/
theorem c3_invalid_service_rejects (r : Registry) (v target : JSVal)
    (now : Int) (choice : Nat) (p e : Bool)
    (hv : isValidService v = false) :
    r.up v target p e = ⟨Except.error RegErr.invalidService, r, []⟩ ∧
    r.down v target p e = ⟨Except.error RegErr.invalidService, r, []⟩ ∧
    r.destroy v p = ⟨Except.error RegErr.invalidService, r, []⟩ ∧
    r.get v now choice p e = ⟨Except.error RegErr.invalidService, r, []⟩ ∧
    r.all v now choice p e = ⟨Except.error RegErr.invalidService, r, []⟩ := by
  cases v with
  | str s =>
    have hs : s = "" := by simpa [isValidService] using hv
    subst hs
    exact ⟨rfl, rfl, rfl, rfl, rfl⟩
  | num n => exact ⟨rfl, rfl, rfl, rfl, rfl⟩
  | boolV b => exact ⟨rfl, rfl, rfl, rfl, rfl⟩
  | undef => exact ⟨rfl, rfl, rfl, rfl, rfl⟩
  | nullV => exact ⟨rfl, rfl, rfl, rfl, rfl⟩

/-- Witness for C3 at a concrete non-string argument (a number) and at
the empty string. -/
theorem c3_invalid_service_rejects_witness :
    isValidService (JSVal.num 7) = false ∧
    baseReg.up (JSVal.num 7) (JSVal.num 8000) false false
      = ⟨Except.error RegErr.invalidService, baseReg, []⟩ ∧
    baseReg.get (JSVal.num 7) 0 0 false false
      = ⟨Except.error RegErr.invalidService, baseReg, []⟩ ∧
    baseReg.destroy (JSVal.str "") false
      = ⟨Except.error RegErr.invalidService, baseReg, []⟩ := by
  have h1 := c3_invalid_service_rejects baseReg (JSVal.num 7) (JSVal.num 8000)
    0 0 false false (by decide)
  have h2 := c3_invalid_service_rejects baseReg (JSVal.str "") (JSVal.num 8000)
    0 0 false false (by decide)
  exact ⟨by decide, h1.1, h1.2.2.2.1, h2.2.2.1⟩

/-- Claim C5 counterexample: with a positive expiry configured and the
TTL-refresh call failing (`eErr := true`), `up` still resolves with its
add count: the refresh error is NOT surfaced as the operation's failure
(the source issues the refresh with no callback), refuting the claim's
"if the refresh call itself errors, that error is surfaced to the caller
as the operation's failure". -/
theorem c5_counterexample :
    (baseReg.up (JSVal.str "svc") (JSVal.num 8000) false true).res
        = Except.ok 1 ∧
    StoreCall.expire (baseReg.opts.keyOf "svc") 5
        ∈ (baseReg.up (JSVal.str "svc") (JSVal.num 8000) false true).calls :=
  ⟨rfl, by decide⟩

/-- Claim C5 amended: the outcome, state and call trace of up, down, get
and all are independent of whether the TTL-refresh call fails (it is
issued without a callback); in particular a failed refresh neither
invalidates a successful primary operation nor is ever surfaced as the
operation's failure. -/
theorem c5_refresh_outcome_ignored (r : Registry) (sv target : JSVal)
    (now : Int) (choice : Nat) (p e : Bool) :
    r.up sv target p e = r.up sv target p false ∧
    r.down sv target p e = r.down sv target p false ∧
    r.get sv now choice p e = r.get sv now choice p false ∧
    r.all sv now choice p e = r.all sv now choice p false :=
  ⟨rfl, rfl, rfl, rfl⟩

/-- Options used by the C6 counterexample. -/
def c6Opts : RegOptions :=
  { pfx := "clerq", delim := none, expire := none, cache := none,
    localAddr := "10.0.0.1" }

/-- Claim C6 counterexample: "12abc" is not a numeric string (JS
`Number("12abc")` is NaN, here `jsStrictNum = none`), is not a number,
and contains no ':', so the claim demands undefined; but `_address` runs
`parseInt`, which reads the "12" prefix, and returns an address. -/
theorem c6_counterexample :
    jsStrictNum "12abc" = none ∧
    ("12abc".data.contains ':') = false ∧
    c6Opts.addr (JSVal.str "12abc") = some "10.0.0.1:12" :=
  ⟨by decide, by decide, by decide⟩

/-- Claim C6 amended: `_address` agrees with the spec's normalizeAddress
once "numeric string" is read as "string whose JS parseInt yields a
number" (i.e. it starts with a parsable numeric prefix): numbers format
as `localAddr:abs(n)`, strings with ':' pass through unchanged, strings
without ':' format the absolute value of their parseInt result when
there is one, and every remaining target gives undefined. -/
theorem c6_address_spec (o : RegOptions) (target : JSVal) :
    o.addr target = normalizeAddressSpec o target := by
  cases target with
  | str s =>
    simp only [RegOptions.addr, normalizeAddressSpec]
    rcases hp : parseIntJS s with _ | p <;> simp [hp]
  | num n => rfl
  | boolV b => rfl
  | undef => rfl
  | nullV => rfl

/-- Claim C1: for every non-empty service string, over stores whose set
members are valid (hence non-empty) addresses: with a fresh cache entry,
`get` resolves the cached address and issues no store call; otherwise it
asks `srandmember` at `_key(service)`, resolves exactly what the store
returned (undefined when the set is empty or the key absent), and, when
caching is enabled and a member came back, stores exactly that member in
the cache for the service, stamped with the current time. -/
theorem c1_get_cache_discipline (r : Registry) (s : String) (now : Int)
    (choice : Nat) (hs : s ≠ "")
    (hmem : ∀ m ∈ r.store.members (r.opts.keyOf s), m ≠ "") :
    (r.isCached s now = true →
      (r.get (JSVal.str s) now choice false false).res
          = Except.ok ((lookupCache r.cache s).map CacheEntry.d) ∧
      (r.get (JSVal.str s) now choice false false).calls = [] ∧
      (r.get (JSVal.str s) now choice false false).reg = r) ∧
    (r.isCached s now = false →
      (r.get (JSVal.str s) now choice false false).res
          = Except.ok (r.store.srandmember (r.opts.keyOf s) choice) ∧
      StoreCall.srandmember (r.opts.keyOf s)
          ∈ (r.get (JSVal.str s) now choice false false).calls ∧
      (r.opts.cacheEnabled = true →
        ∀ m, r.store.srandmember (r.opts.keyOf s) choice = some m →
          lookupCache (r.get (JSVal.str s) now choice false false).reg.cache s
            = some ⟨m, now⟩) ∧
      (r.store.members (r.opts.keyOf s) = [] →
        (r.get (JSVal.str s) now choice false false).res = Except.ok none)) := by
  constructor
  · intro hc
    refine ⟨?_, ?_, ?_⟩ <;> simp [Registry.get, hs, hc]
  · intro hc
    refine ⟨?_, ?_, ?_, ?_⟩
    · simp [Registry.get, hs, hc]
    · simp [Registry.get, hs, hc]
    · intro hen m hm
      have hmne : m ≠ "" := hmem m (srandmember_mem hm)
      simp [Registry.get, hs, hc, hen, hm, hmne, lookupCache_putCache_self]
    · intro hemp
      have hnone : r.store.srandmember (r.opts.keyOf s) choice = none := by
        simp [RedisStore.srandmember, hemp]
      simp [Registry.get, hs, hc, hnone]

/-- Registry used by the C1 witness: one registered address, cold cache. -/
def c1Reg : Registry :=
  { opts := { pfx := "clerq", delim := none, expire := some 5,
              cache := some 60000, localAddr := "10.0.0.1" }
  , cache := []
  , store := ⟨[("clerq::svc", ["10.0.0.1:8000"])]⟩ }

/-- Witness for C1: a cold `get` resolves the stored member and caches
exactly it. -/
theorem c1_get_cache_discipline_witness :
    c1Reg.isCached "svc" 0 = false ∧
    (c1Reg.get (JSVal.str "svc") 0 0 false false).res
        = Except.ok (some "10.0.0.1:8000") ∧
    lookupCache (c1Reg.get (JSVal.str "svc") 0 0 false false).reg.cache "svc"
        = some ⟨"10.0.0.1:8000", 0⟩ := by
  have h := c1_get_cache_discipline c1Reg "svc" 0 0 (by decide) (by decide)
  have hc : c1Reg.isCached "svc" 0 = false := by decide
  have h2 := h.2 hc
  refine ⟨hc, ?_, ?_⟩
  · exact h2.1.trans (by rfl)
  · exact h2.2.2.1 (by decide) "10.0.0.1:8000" (by rfl)

/-- Registry used by the C4 counterexample: window 50 ms, entry stamped
at time 100. -/
def c4Reg : Registry :=
  { opts := { pfx := "clerq", delim := none, expire := none, cache := some 50,
              localAddr := "10.0.0.1" }
  , cache := [("svc", ⟨"10.0.0.1:8000", 100⟩)]
  , store := ⟨[]⟩ }

/-- Claim C4 counterexample: window w = 50 is positive and the claim's
condition `now - t < w` holds at now = 0, t = 100 (−100 < 50), yet
isCached is false, because the source compares `Math.abs(now − t) < w`. -/
theorem c4_counterexample :
    ¬ (c4Reg.isCached "svc" 0 = true ↔ ((0:Int) < 50 ∧ (0:Int) - 100 < 50)) := by
  decide

/-- Claim C4 amended: isCached is true iff the configured window is a
positive number w and `|now − t| < w` (absolute difference, per
`Math.abs` in the source); and whenever the window is not a positive
number, caching is disabled entirely: no entry is consulted (isCached is
false and `get` resolves the store's answer) and none is stored by `get`
or `all`. -/
theorem c4_isCached_abs_window (r : Registry) (s : String) (now : Int)
    (choice : Nat) :
    (r.isCached s now = true ↔
      ∃ c, r.opts.cache = some c ∧ 0 < c ∧
        ∃ e, lookupCache r.cache s = some e ∧ |now - e.t| < c) ∧
    (r.opts.cacheEnabled = false →
      r.isCached s now = false ∧
      (s ≠ "" →
        (r.get (JSVal.str s) now choice false false).reg.cache = r.cache ∧
        (r.get (JSVal.str s) now choice false false).res
            = Except.ok (r.store.srandmember (r.opts.keyOf s) choice) ∧
        (r.all (JSVal.str s) now choice false false).reg.cache = r.cache)) := by
  constructor
  · constructor
    · intro h
      rcases hco : r.opts.cache with _ | c
      · simp [Registry.isCached, hco] at h
      · by_cases hp : (0:Int) < c
        · rcases hl : lookupCache r.cache s with _ | e
          · simp [Registry.isCached, hco, hp, hl] at h
          · refine ⟨c, rfl, hp, e, rfl, ?_⟩
            simp [Registry.isCached, hco, hp, hl] at h
            exact h
        · simp [Registry.isCached, hco, hp] at h
    · rintro ⟨c, hco, hp, e, hl, hd⟩
      simp [Registry.isCached, hco, hp, hl, hd]
  · intro hde
    have hic := isCached_false_of_disabled r s now hde
    refine ⟨hic, fun hs => ⟨?_, ?_, ?_⟩⟩
    · simp [Registry.get, hs, hic, hde]
    · simp [Registry.get, hs, hic]
    · simp [Registry.all, hs, hde]

/-- Registry used by the C4 witness: window 0 disables caching. -/
def c4wReg : Registry :=
  { opts := { pfx := "clerq", delim := none, expire := none, cache := some 0,
              localAddr := "10.0.0.1" }
  , cache := [("svc", ⟨"10.0.0.1:8000", 0⟩)]
  , store := ⟨[("clerq::svc", ["10.0.0.1:8000"])]⟩ }

/-- Witness for the amended C4 at a registry with window 0: nothing is
consulted or stored. -/
theorem c4_isCached_abs_window_witness :
    (c4wReg.isCached "svc" 10 = true ↔
      ∃ c, c4wReg.opts.cache = some c ∧ 0 < c ∧
        ∃ e, lookupCache c4wReg.cache "svc" = some e ∧ |(10:Int) - e.t| < c) ∧
    c4wReg.isCached "svc" 10 = false ∧
    (c4wReg.get (JSVal.str "svc") 10 0 false false).reg.cache = c4wReg.cache ∧
    (c4wReg.all (JSVal.str "svc") 10 0 false false).reg.cache = c4wReg.cache := by
  have h := c4_isCached_abs_window c4wReg "svc" 10 0
  have h2 := h.2 (by decide)
  have h3 := h2.2 (by decide)
  exact ⟨h.1, h2.1, h3.1, h3.2.2⟩

/-- The free-port probe used by concrete findPort runs: reports the
requested starting port itself as locally free (or 8688 with no start),
modelling an OS where the probed ports are not bound. -/
def probeFree : Option Nat → Nat := fun o => o.getD 8688

/-- Registry used by the C2 run and several witnesses: default options,
empty store, no expiry, no caching. -/
def c2Reg : Registry :=
  { opts := { pfx := "clerq", delim := none, expire := none, cache := none,
              localAddr := "10.0.0.1" }
  , cache := [], store := ⟨[]⟩ }

/-- Claim C2 (code bug): findPort(8688, "127.0.0.1") resolves 8688 and
claims it in the store; the immediately following
findPort(8688, "127.0.0.1") hits the conflict branch, which calls
`this.findPort(port + 1, ip)` WITHOUT resolving the outer promise with
its result — so the second promise never settles (first component
`none`), even though the recursive call does claim "8689" in the store.
The claim, the spec's scenario and the source's own JSDoc
(`@returns Promise<Number>`) say the second call returns 8689. -/
theorem c2_findPort_conflict_never_resolves :
    (c2Reg.findPort probeFree 5 (JSVal.num 8688) (JSVal.str "127.0.0.1")).1
        = some 8688 ∧
    ((c2Reg.findPort probeFree 5 (JSVal.num 8688)
        (JSVal.str "127.0.0.1")).2.1.findPort probeFree 5 (JSVal.num 8688)
        (JSVal.str "127.0.0.1")).1 = none ∧
    "8689" ∈ ((c2Reg.findPort probeFree 5 (JSVal.num 8688)
        (JSVal.str "127.0.0.1")).2.1.findPort probeFree 5 (JSVal.num 8688)
        (JSVal.str "127.0.0.1")).2.1.store.members
        (c2Reg.opts.keyOf "127.0.0.1/p") :=
  ⟨by decide, by decide, by decide⟩

/-- Claim C10: findPort reserves in the store only when the effective
host argument is a string passing the is.ip test: when neither argument
passes it, findPort resolves the probed free port, issues no store call
and leaves the registry unchanged; and when the first argument itself
passes the is.ip test it is treated as the host with no starting port
(the original second argument is discarded). -/
theorem c10_findPort_ip_guard (r : Registry) (probe : Option Nat → Nat)
    (fuel : Nat) (pArg hArg : JSVal)
    (hp : isIp pArg = false) (hh : isIp hArg = false) :
    r.findPort probe fuel pArg hArg = (some (probe (portNumOf pArg)), r, []) ∧
    ∀ p2 h2 : JSVal, isIp p2 = true →
      r.findPort probe fuel p2 h2 = r.findPort probe fuel JSVal.undef p2 := by
  constructor
  · simp only [Registry.findPort]
    rw [findPortGo.eq_def]
    simp [hp, hh]
  · intro p2 h2 hq
    have hu : isIp JSVal.undef = false := rfl
    simp only [Registry.findPort]
    rw [findPortGo.eq_def]
    rw [findPortGo.eq_def]
    simp [hq, hu]

/-- Witness for C10: a non-IP host gives a pure probe with no store
call; an IP first argument behaves as host-with-no-start. -/
theorem c10_findPort_ip_guard_witness :
    c2Reg.findPort probeFree 1 (JSVal.num 3000) (JSVal.str "localhost")
      = (some 3000, c2Reg, []) ∧
    c2Reg.findPort probeFree 1 (JSVal.str "10.0.0.2") (JSVal.str "localhost")
      = c2Reg.findPort probeFree 1 JSVal.undef (JSVal.str "10.0.0.2") := by
  have h := c10_findPort_ip_guard c2Reg probeFree 1 (JSVal.num 3000)
    (JSVal.str "localhost") (by decide) (by decide)
  exact ⟨h.1.trans (by rfl),
    h.2 (JSVal.str "10.0.0.2") (JSVal.str "localhost") (by decide)⟩

/-- Claim C7: for valid (service, address) pairs whose address is not yet
registered, up then down with the same target resolve count 1 then
count 1, and a second down on the same target resolves count 0. -/
theorem c7_up_down_counts (r : Registry) (s : String) (target : JSVal)
    (a : String) (hs : s ≠ "") (ha : r.opts.addr target = some a)
    (hnot : a ∉ r.store.members (r.opts.keyOf s)) :
    (r.up (JSVal.str s) target false false).res = Except.ok 1 ∧
    ((r.up (JSVal.str s) target false false).reg.down (JSVal.str s) target
        false false).res = Except.ok 1 ∧
    (((r.up (JSVal.str s) target false false).reg.down (JSVal.str s) target
        false false).reg.down (JSVal.str s) target false false).res
      = Except.ok 0 := by
  have h1 := up_ok r s target a false hs ha
  have hadd := sadd_not_mem_parts r.store (r.opts.keyOf s) a hnot
  have hadd1 := hadd.1
  have hadd2 := hadd.2
  have h2 := down_ok { r with store := (r.store.sadd (r.opts.keyOf s) a).2 }
    s target a false hs ha
  have hmem1 : a ∈ (r.store.sadd (r.opts.keyOf s) a).2.members
      (r.opts.keyOf s) := by
    rw [hadd2]
    exact List.mem_append_right _ (List.mem_singleton_self a)
  have hparts := srem_mem_parts ((r.store.sadd (r.opts.keyOf s) a).2)
    (r.opts.keyOf s) a hmem1
  have hsr1 := hparts.1
  have hsr2 : ((r.store.sadd (r.opts.keyOf s) a).2.srem (r.opts.keyOf s)
      a).2.members (r.opts.keyOf s) = r.store.members (r.opts.keyOf s) := by
    rw [hparts.2, hadd2, List.erase_append_right _ hnot]
    simp
  have h3 := down_ok
    { r with store := ((r.store.sadd (r.opts.keyOf s) a).2.srem
        (r.opts.keyOf s) a).2 } s target a false hs ha
  have hnot3 : a ∉ ((r.store.sadd (r.opts.keyOf s) a).2.srem (r.opts.keyOf s)
      a).2.members (r.opts.keyOf s) := by
    rw [hsr2]
    exact hnot
  have hsr3 : (((r.store.sadd (r.opts.keyOf s) a).2.srem (r.opts.keyOf s)
      a).2.srem (r.opts.keyOf s) a).1 = 0 := by
    rw [srem_not_mem _ _ _ hnot3]
  refine ⟨?_, ?_, ?_⟩
  · rw [h1]
    exact congrArg Except.ok hadd1
  · rw [h1]
    show ({ r with store := (r.store.sadd (r.opts.keyOf s) a).2 }.down
      (JSVal.str s) target false false).res = Except.ok 1
    rw [h2]
    exact congrArg Except.ok hsr1
  · rw [h1]
    show (({ r with store := (r.store.sadd (r.opts.keyOf s) a).2 }.down
      (JSVal.str s) target false false).reg.down (JSVal.str s) target
      false false).res = Except.ok 0
    rw [h2]
    show ({ r with store := ((r.store.sadd (r.opts.keyOf s) a).2.srem
      (r.opts.keyOf s) a).2 }.down (JSVal.str s) target false false).res
      = Except.ok 0
    rw [h3]
    exact congrArg Except.ok hsr3

/-- Witness for C7 at a concrete fresh pair. -/
theorem c7_up_down_counts_witness :
    (baseReg.up (JSVal.str "svc") (JSVal.num 8000) false false).res
        = Except.ok 1 ∧
    ((baseReg.up (JSVal.str "svc") (JSVal.num 8000) false false).reg.down
        (JSVal.str "svc") (JSVal.num 8000) false false).res = Except.ok 1 ∧
    (((baseReg.up (JSVal.str "svc") (JSVal.num 8000) false false).reg.down
        (JSVal.str "svc") (JSVal.num 8000) false false).reg.down
        (JSVal.str "svc") (JSVal.num 8000) false false).res = Except.ok 0 :=
  c7_up_down_counts baseReg "svc" (JSVal.num 8000) "10.0.0.1:8000"
    (by decide) (by rfl) (by decide)

theorem stripPfxSpec_append (pat rest : String) :
    stripPfxSpec pat (pat ++ rest) = rest := by
  show (match dropPfx pat.data (pat ++ rest).data with
    | some r2 => (⟨r2⟩ : String)
    | none => pat ++ rest) = rest
  rw [strDataAppend, dropPfx_append]

theorem replaceFirstJS_append (pat rest : String) :
    replaceFirstJS (pat ++ rest) pat = rest := by
  show (⟨removeFirstOcc pat.data (pat ++ rest).data⟩ : String) = rest
  rw [strDataAppend, removeFirstOcc_append]

/-- Claim C8: when every key the store returns for the glob `prefix*` is
a registry key (i.e. begins with `buildKey()` = prefix + delimiter),
services() resolves exactly those keys, in store order, each with the
common key prefix stripped — the bare service names. -/
theorem c8_services_strips_keys (r : Registry)
    (hk : ∀ k ∈ r.store.keysWithPfx r.opts.pfx,
      ∃ rest, k = r.opts.keyOf "" ++ rest) :
    (r.services false).res
        = Except.ok ((r.store.keysWithPfx r.opts.pfx).map
            (fun k => stripPfxSpec (r.opts.keyOf "") k)) ∧
    (r.services false).calls = [StoreCall.keys (r.opts.pfx ++ "*")] := by
  constructor
  · show Except.ok ((r.store.keysWithPfx r.opts.pfx).map
        (fun k => replaceFirstJS k (r.opts.keyOf ""))) = _
    congr 1
    apply map_congr_mem
    intro k hkm
    obtain ⟨rest, hrest⟩ := hk k hkm
    rw [hrest, replaceFirstJS_append, stripPfxSpec_append]
  · rfl

/-- Registry used by the C8 witness: two registered services. -/
def c8Reg : Registry :=
  { opts := { pfx := "clerq", delim := none, expire := none, cache := none,
              localAddr := "10.0.0.1" }
  , cache := []
  , store := ⟨[("clerq::alpha", ["x:1"]), ("clerq::beta", ["y:2"])]⟩ }

/-- Witness for C8: two keys are stripped to their bare service names in
store order. -/
theorem c8_services_strips_keys_witness :
    (c8Reg.services false).res = Except.ok ["alpha", "beta"] ∧
    (c8Reg.services false).calls = [StoreCall.keys "clerq*"] := by
  have hkeys : c8Reg.store.keysWithPfx c8Reg.opts.pfx
      = ["clerq::alpha", "clerq::beta"] := rfl
  have hk : ∀ k ∈ c8Reg.store.keysWithPfx c8Reg.opts.pfx,
      ∃ rest, k = c8Reg.opts.keyOf "" ++ rest := by
    intro k hkm
    rw [hkeys] at hkm
    simp only [List.mem_cons, List.not_mem_nil, or_false] at hkm
    rcases hkm with rfl | rfl
    · exact ⟨"alpha", rfl⟩
    · exact ⟨"beta", rfl⟩
  have h := c8_services_strips_keys c8Reg hk
  exact ⟨h.1.trans (by rfl), h.2.trans (by rfl)⟩

/-- Claim C9: destroy and down never touch the in-process read cache:
destroy leaves the registry (cache included) unchanged, down leaves the
cache unchanged, and after a successful destroy a get within the cache
window still resolves the previously cached address without any store
call. -/
theorem c9_destroy_down_keep_cache (r : Registry) (s : String)
    (target : JSVal) (now : Int) (choice : Nat) (e : CacheEntry)
    (hs : s ≠ "") (he : lookupCache r.cache s = some e)
    (hfresh : r.isCached s now = true) :
    (r.destroy (JSVal.str s) false).res = Except.ok true ∧
    (r.destroy (JSVal.str s) false).reg.cache = r.cache ∧
    (r.down (JSVal.str s) target false false).reg.cache = r.cache ∧
    ((r.destroy (JSVal.str s) false).reg.get (JSVal.str s) now choice
        false false).res = Except.ok (some e.d) ∧
    ((r.destroy (JSVal.str s) false).reg.get (JSVal.str s) now choice
        false false).calls = [] := by
  have hd : r.destroy (JSVal.str s) false
      = ⟨Except.ok true, r, [StoreCall.expire (r.opts.keyOf s) 1]⟩ := by
    simp [Registry.destroy, hs]
  refine ⟨?_, ?_, ?_, ?_, ?_⟩
  · rw [hd]
  · rw [hd]
  · rcases hat : r.opts.addr target with _ | a
    · simp [Registry.down, hs, hat]
    · simp [Registry.down, hs, hat]
  · rw [hd]
    show (r.get (JSVal.str s) now choice false false).res
      = Except.ok (some e.d)
    simp [Registry.get, hs, hfresh, he]
  · rw [hd]
    show (r.get (JSVal.str s) now choice false false).calls = []
    simp [Registry.get, hs, hfresh]

/-- Registry used by the C9 witness: a fresh cache entry and one
registration. -/
def c9Reg : Registry :=
  { opts := { pfx := "clerq", delim := none, expire := some 5,
              cache := some 60000, localAddr := "10.0.0.1" }
  , cache := [("svc", ⟨"10.0.0.1:8000", 100⟩)]
  , store := ⟨[("clerq::svc", ["10.0.0.1:8000"])]⟩ }

/-- Witness for C9 at a concrete fresh entry (window 60000 ms, entry
stamped 100, read at 150). -/
theorem c9_destroy_down_keep_cache_witness :
    (c9Reg.destroy (JSVal.str "svc") false).res = Except.ok true ∧
    (c9Reg.destroy (JSVal.str "svc") false).reg.cache = c9Reg.cache ∧
    (c9Reg.down (JSVal.str "svc") (JSVal.num 8000) false false).reg.cache
        = c9Reg.cache ∧
    ((c9Reg.destroy (JSVal.str "svc") false).reg.get (JSVal.str "svc") 150 0
        false false).res = Except.ok (some "10.0.0.1:8000") := by
  have h := c9_destroy_down_keep_cache c9Reg "svc" (JSVal.num 8000) 150 0
    ⟨"10.0.0.1:8000", 100⟩ (by decide) (by rfl) (by decide)
  exact ⟨h.1, h.2.1, h.2.2.1, h.2.2.2.1⟩
